import Mathlib

/-!
Verification development for the humumls UMLS-to-MongoDB ETL
(src/humumls/tablecreator.py).

The tables built by TableCreator are shallowly embedded here:

  * an RRF record, after record.strip().split("|"), is a list of field
    strings (`Row`); positional access mirrors split[i];
  * a Python dict keyed by strings is an association list updated in
    place (`alookup` / `aset` preserve insertion order exactly as a
    Python dict does);
  * a Python set of strings is a `Finset String`; the conversion of the
    accumulated sets to lists before insertion only reshapes the data
    for BSON and is kept as the set itself;
  * the try/except KeyError idioms of the source are translated by
    explicit matches on the optional dict entries;
  * fallible passes return `Except String`, the error standing for the
    uncaught Python exception (KeyError) propagating out of the pass.

Field names and processing order follow tablecreator.py; each
definition cites the lines of the source it embeds.
-/

/-- A parsed RRF row: the fields produced by record.strip().split("|"). -/
abbrev Row := List String

/-- Positional field access split[i].  Real rows always carry enough
fields, so the default is never consulted on well-formed input. -/
def fld (r : Row) (i : Nat) : String := r.getD i ""

/-- Lookup in a Python dict modelled as an insertion-ordered
association list. -/
def alookup {α : Type} : List (String × α) → String → Option α
  | [], _ => none
  | (k, v) :: rest, key => if key = k then some v else alookup rest key

/-- Python dict assignment d[k] = v: update in place if the key exists,
append at the end otherwise. -/
def aset {α : Type} : List (String × α) → String → α → List (String × α)
  | [], k, v => [(k, v)]
  | (k0, v0) :: rest, k, v =>
      if k = k0 then (k, v) :: rest else (k0, v0) :: aset rest k v

/-- The try/except KeyError set-add idiom of the source:
try: d[key].add(x) / except KeyError: d[key] = set containing x. -/
def insertF (x : String) : Option (Finset String) → Finset String
  | some s => insert x s
  | none => {x}

/-- First-match disjunction on options, used by the specification-side
last-writer functions: later rows are consulted first. -/
def orO {α : Type} : Option α → Option α → Option α
  | some a, _ => some a
  | none, b => b

/-- The static relation code table self.relationmapping
(tablecreator.py lines 43 to 55). -/
def relationmapping : List (String × String) :=
  [("PAR", "parent"), ("CHD", "child"), ("RB", "broader"),
   ("RN", "narrower"), ("SY", "synonym"), ("RO", "other"),
   ("RL", "similar"), ("RQ", "related"), ("SIB", "sibling"),
   ("AQ", "qualifier"), ("QB", "qualifies"), ("RU", "unspecified"),
   ("XR", "notrelated")]

/-- The static UMLS-to-ISO language table of _transformlangs_to_iso
(tablecreator.py lines 75 to 98). -/
def langdict : List (String × String) :=
  [("ENG", "en"), ("BAQ", "eu"), ("CHI", "zh"), ("CZE", "cz"),
   ("DAN", "dk"), ("DUT", "nl"), ("EST", "et"), ("FIN", "fi"),
   ("FRE", "fr"), ("GER", "de"), ("GRE", "gr"), ("HEB", "he"),
   ("HUN", "hu"), ("ITA", "it"), ("JPN", "jp"), ("KOR", "ko"),
   ("LAV", "lv"), ("NOR", "no"), ("POL", "pl"), ("POR", "po"),
   ("RUS", "ru"), ("SPA", "sp"), ("SWE", "sw"), ("TUR", "tr")]

/-- The function _transformlangs_to_iso (tablecreator.py lines 66 to 100): the set
comprehension over langdict; an unknown code is a KeyError. -/
def transformlangs_to_iso : List String → Except String (Finset String)
  | [] => Except.ok ∅
  | l :: ls =>
      match alookup langdict l with
      | none => Except.error "KeyError: language code"
      | some iso =>
          match transformlangs_to_iso ls with
          | Except.error e => Except.error e
          | Except.ok rest => Except.ok (insert iso rest)

/-- Byte size of one character under UTF-8, as len(c.encode("utf-8")). -/
def charSize (c : Char) : Nat :=
  if c.val < 0x80 then 1
  else if c.val < 0x800 then 2
  else if c.val < 0x10000 then 3
  else 4

/-- len(s.encode("utf-8")): the UTF-8 byte length of a string. -/
def utf8Len (s : String) : Nat := (s.data.map charSize).sum

/-- A word character for the regex class backslash-w restricted to
ASCII: letters, digits and the underscore. -/
def isWordChar (c : Char) : Bool := c.isAlphanum || c == '_'

/-- self.punct.sub(" ", s): every non-word character becomes a space. -/
def pySub (s : String) : String :=
  String.mk (s.data.map (fun c => if isWordChar c then c else ' '))

/-- s.lower() restricted to ASCII case mapping. -/
def pyLower (s : String) : String := String.mk (s.data.map Char.toLower)

/-- s.split() with no argument: split on whitespace runs, dropping
empty pieces. -/
def pySplit (s : String) : List String :=
  (s.split (fun c => c.isWhitespace)).filter (fun w => w ≠ "")

/-- The normalized lexical form of _create_strings line 238:
space-join of self.punct.sub(" ", string).lower().split(). -/
def lowerwords (s : String) : String :=
  String.intercalate " " (pySplit (pyLower (pySub s)))

/-- The value of a "rel" key: either the plain dict assigned by the
BSON conversion step (line 178) or the defaultdict of sets assigned by
_mrrel (line 364).  The distinction decides whether a missing bucket
raises KeyError or is created on access. -/
structure RelMap where
  isDefault : Bool
  buckets : List (String × Finset String)
deriving DecidableEq

/-- One entry of the concept store of _create_concepts: a Python dict
whose keys may each be absent. -/
structure CEntry where
  id : Option String := none
  preferred : Option String := none
  term : Option (Finset String) := none
  str : Option (Finset String) := none
  rel : Option RelMap := none
  definition : Option (Finset String) := none
  sty : Option (List String) := none
deriving DecidableEq

/-- One entry of the term store of _create_terms. -/
structure TEntry where
  id : Option String := none
  concept : Option (Finset String) := none
  str : Option (Finset String) := none
deriving DecidableEq

/-- One entry of the string store of _create_strings. -/
structure SEntry where
  id : Option String := none
  str : Option String := none
  lower : Option String := none
  lang : Option String := none
  numwords : Option Nat := none
  numwordslower : Option Nat := none
  term : Option String := none
  concept : Option (Finset String) := none
deriving DecidableEq

abbrev CStore := List (String × CEntry)
abbrev TStore := List (String × TEntry)
abbrev SStore := List (String × SEntry)

/-- The body of one _create_concepts loop iteration after the language
check (tablecreator.py lines 153 to 170): skip forbidden string ids,
then record _id, the preferred term on flag P, and add the term and
string ids to the sets. -/
def create_concepts_row (F : Finset String) (store : CStore) (r : Row) : CStore :=
  if fld r 5 ∈ F then store
  else
    let pk := fld r 0
    let e0 := (alookup store pk).getD {}
    let e1 := { e0 with id := some pk }
    let e2 := if fld r 2 = "P" then { e1 with preferred := some (fld r 3) } else e1
    let e3 := { e2 with term := some (insertF (fld r 3) e2.term) }
    let e4 := { e3 with str := some (insertF (fld r 5) e3.str) }
    aset store pk e4

/-- One _create_concepts loop iteration (lines 148 to 170): rows whose
language field is not in self.languages are skipped. -/
def create_concepts_step (L F : Finset String) (store : CStore) (r : Row) : CStore :=
  if fld r 1 ∉ L then store else create_concepts_row F store r

/-- The MRCONSO loop of _create_concepts over a row sequence. -/
def create_concepts_fold (L F : Finset String) (store : CStore) : List Row → CStore
  | [] => store
  | r :: rs => create_concepts_fold L F (create_concepts_step L F store r) rs

/-- The concept accumulator produced by the MRCONSO pass of
_create_concepts, from the empty store. -/
def create_concepts_store (L F : Finset String) (rows : List Row) : CStore :=
  create_concepts_fold L F [] rows

/-- Folding the loop body alone over rows, used to state that the
language guard selects exactly the rows it accepts. -/
def create_concepts_body_fold (F : Finset String) (store : CStore) : List Row → CStore
  | [] => store
  | r :: rs => create_concepts_body_fold F (create_concepts_row F store r) rs

/-- The body of one _create_terms loop iteration after the language
check (tablecreator.py lines 300 to 318). -/
def create_terms_row (F : Finset String) (store : TStore) (r : Row) : TStore :=
  if fld r 5 ∈ F then store
  else
    let pk := fld r 3
    let e0 := (alookup store pk).getD {}
    let e1 := { e0 with id := some pk }
    let e2 := { e1 with concept := some (insertF (fld r 0) e1.concept) }
    let e3 := { e2 with str := some (insertF (fld r 5) e2.str) }
    aset store pk e3

/-- One _create_terms loop iteration (lines 295 to 318). -/
def create_terms_step (L F : Finset String) (store : TStore) (r : Row) : TStore :=
  if fld r 1 ∉ L then store else create_terms_row F store r

/-- The MRCONSO loop of _create_terms. -/
def create_terms_fold (L F : Finset String) (store : TStore) : List Row → TStore
  | [] => store
  | r :: rs => create_terms_fold L F (create_terms_step L F store r) rs

/-- The term store produced by _create_terms from the empty store. -/
def create_terms_store (L F : Finset String) (rows : List Row) : TStore :=
  create_terms_fold L F [] rows

/-- Folding the _create_terms loop body alone over rows. -/
def create_terms_body_fold (F : Finset String) (store : TStore) : List Row → TStore
  | [] => store
  | r :: rs => create_terms_body_fold F (create_terms_row F store r) rs

/-- The body of one _create_strings loop iteration after the language
check (tablecreator.py lines 228 to 251): an oversize surface text
(at least 1000 UTF-8 bytes, line 232) adds the string id to
self.forbidden and skips the row; otherwise every scalar field is
assigned from the row and the concept set accumulates. -/
def create_strings_row (st : SStore × Finset String) (r : Row) : SStore × Finset String :=
  let pk := fld r 5
  let s := fld r 14
  if 1000 ≤ utf8Len s then (st.1, insert pk st.2)
  else
    let lw := lowerwords s
    let e0 := (alookup st.1 pk).getD {}
    let e : SEntry :=
      { id := some pk, str := some s, lower := some lw, lang := some (fld r 1),
        numwords := some (pySplit s).length,
        numwordslower := some (pySplit lw).length,
        term := some (fld r 3),
        concept := some (insertF (fld r 0) e0.concept) }
    (aset st.1 pk e, st.2)

/-- One _create_strings loop iteration (lines 223 to 251). -/
def create_strings_step (L : Finset String) (st : SStore × Finset String) (r : Row) :
    SStore × Finset String :=
  if fld r 1 ∉ L then st else create_strings_row st r

/-- The MRCONSO loop of _create_strings, threading the store and the
forbidden set. -/
def create_strings_fold (L : Finset String) (st : SStore × Finset String) :
    List Row → SStore × Finset String
  | [] => st
  | r :: rs => create_strings_fold L (create_strings_step L st r) rs

/-- The string store and forbidden set produced by _create_strings
from the empty store and the empty forbidden set. -/
def create_strings_state (L : Finset String) (rows : List Row) : SStore × Finset String :=
  create_strings_fold L ([], ∅) rows

/-- Folding the _create_strings loop body alone over rows. -/
def create_strings_body_fold (st : SStore × Finset String) :
    List Row → SStore × Finset String
  | [] => st
  | r :: rs => create_strings_body_fold (create_strings_row st r) rs

/-- The BSON conversion step of _create_concepts (lines 175 to 178):
term and string sets are reshaped to lists (kept as sets here) and
every entry receives the plain empty dict under "rel". -/
def concept_bson_convert (store : CStore) : CStore :=
  store.map (fun kv => (kv.1, { kv.2 with rel := some { isDefault := false, buckets := [] } }))

/-- One _mrdef loop iteration (tablecreator.py lines 388 to 407):
classify the definition text, skip when the detected language is not
among the ISO languages, otherwise tokenize and add the text to the
definition set of the concept, creating the entry on demand (the store
is a defaultdict).  The classifier stands for langid.classify and the
tokenizer for self._tokenizer, which the constructor always makes a
function, so it is always applied. -/
def mrdef_row (iso : Finset String) (classify tok : String → String)
    (store : CStore) (r : Row) : CStore :=
  let pk := fld r 0
  let d := fld r 5
  if classify d ∉ iso then store
  else
    let d := tok d
    let e0 := (alookup store pk).getD {}
    aset store pk { e0 with definition := some (insertF d e0.definition) }

/-- The MRDEF loop of _mrdef. -/
def mrdef_fold (iso : Finset String) (classify tok : String → String)
    (store : CStore) : List Row → CStore
  | [] => store
  | r :: rs => mrdef_fold iso classify tok (mrdef_row iso classify tok store r) rs

/-- The pass _mrdef over a row sequence.  Its final loop (lines 409 to 413)
reshapes each definition set to a list inside try/except KeyError, so
it never fails and is the identity in this embedding. -/
def mrdef_model (iso : Finset String) (classify tok : String → String)
    (store : CStore) (rows : List Row) : CStore :=
  mrdef_fold iso classify tok store rows

/-- defaultdict(set), the value assigned under "rel" by the except
branch of _mrrel line 364. -/
def emptyDefaultRel : RelMap := { isDefault := true, buckets := [] }

/-- Adding to a bucket of a defaultdict(set): the missing bucket is
created as an empty set on access, then the destination is added. -/
def bucketAdd (buckets : List (String × Finset String)) (rel dest : String) :
    List (String × Finset String) :=
  match alookup buckets rel with
  | some s => aset buckets rel (insert dest s)
  | none => aset buckets rel {dest}

/-- One _mrrel loop iteration (tablecreator.py lines 353 to 364).  The
relation code lookup self.relationmapping[split[3]] is outside the
try, so an unknown code is an uncaught KeyError.  The try covers
store[source]["rel"][rel].add(dest): a KeyError from a missing "rel"
key, or from a missing bucket of a plain dict, runs the except branch,
which replaces the "rel" value by a fresh empty defaultdict(set)
without adding the destination. -/
def mrrel_row (store : CStore) (r : Row) : Except String CStore :=
  let source := fld r 4
  let dest := fld r 0
  match alookup relationmapping (fld r 3) with
  | none => Except.error "KeyError: relation code"
  | some rel =>
      let e0 := (alookup store source).getD {}
      match e0.rel with
      | none => Except.ok (aset store source { e0 with rel := some emptyDefaultRel })
      | some rm =>
          if rm.isDefault then
            Except.ok (aset store source
              { e0 with rel := some { rm with buckets := bucketAdd rm.buckets rel dest } })
          else
            match alookup rm.buckets rel with
            | none => Except.ok (aset store source { e0 with rel := some emptyDefaultRel })
            | some s => Except.ok (aset store source
                { e0 with rel := some { rm with buckets := aset rm.buckets rel (insert dest s) } })

/-- The MRREL loop of _mrrel, stopping at the first uncaught error. -/
def mrrel_fold (store : CStore) : List Row → Except String CStore
  | [] => Except.ok store
  | r :: rs =>
      match mrrel_row store r with
      | Except.error e => Except.error e
      | Except.ok s => mrrel_fold s rs

/-- The final conversion loop of _mrrel (lines 366 to 368): it reads
store[key]["rel"] for every key, so an entry without a "rel" key is an
uncaught KeyError; bucket sets are reshaped to lists (kept as sets). -/
def mrrel_convert : CStore → Except String CStore
  | [] => Except.ok []
  | (k, e) :: rest =>
      match e.rel with
      | none => Except.error "KeyError: rel"
      | some _ =>
          match mrrel_convert rest with
          | Except.error msg => Except.error msg
          | Except.ok rest2 => Except.ok ((k, e) :: rest2)

/-- The pass _mrrel over a row sequence: the loop, then the conversion loop. -/
def mrrel_model (store : CStore) (rows : List Row) : Except String CStore :=
  match mrrel_fold store rows with
  | Except.error e => Except.error e
  | Except.ok s => mrrel_convert s

/-- The pass _create_concepts (tablecreator.py lines 123 to 196) on an empty
collection: the MRCONSO pass, the BSON conversion, then optionally
_mrdef and _mrrel, and finally the filter keeping only entries that
carry a "string" key (line 188).  The ok value is the record list
handed to insert_many; an error is an exception aborting the run
before that insertion. -/
def create_concepts (L iso F : Finset String) (classify tok : String → String)
    (definitions relations : Bool) (mrconso mrdefRows mrrelRows : List Row) :
    Except String CStore :=
  let store := concept_bson_convert (create_concepts_store L F mrconso)
  let store := if definitions then mrdef_model iso classify tok store mrdefRows else store
  match (if relations then mrrel_model store mrrelRows else Except.ok store) with
  | Except.error e => Except.error e
  | Except.ok s => Except.ok (s.filter (fun kv => kv.2.str.isSome))

/-- The three stores produced by one full process run, together with
the forbidden set as it stands at the end of the run. -/
structure ProcessOut where
  termStore : TStore
  stringStore : SStore
  forbidden : Finset String
  conceptStore : CStore
deriving DecidableEq

/-- process (tablecreator.py lines 102 to 121) on empty collections:
_create_terms runs first, while self.forbidden is still empty; then
_create_strings, which populates self.forbidden; then
_create_concepts with the populated forbidden set. -/
def process_model (L iso : Finset String) (classify tok : String → String)
    (process_relations process_definitions : Bool)
    (mrconso mrdefRows mrrelRows : List Row) : Except String ProcessOut :=
  let t := create_terms_store L ∅ mrconso
  let sf := create_strings_state L mrconso
  match create_concepts L iso sf.2 classify tok process_definitions process_relations
      mrconso mrdefRows mrrelRows with
  | Except.error e => Except.error e
  | Except.ok c => Except.ok { termStore := t, stringStore := sf.1, forbidden := sf.2, conceptStore := c }

/-- Modelled from the spec: the Semantic Type Merger of section 4.6 is
described by the spec but absent from src (tablecreator.py reads only
MRCONSO, MRDEF and MRREL).  For each MRSTY row, with field 0 the
concept id and field 2 the semantic-type code: if the concept id is
not already known, skip silently; otherwise append the code to the
semantic-type list of the concept, without deduplication. -/
def mrsty_row (store : CStore) (r : Row) : CStore :=
  match alookup store (fld r 0) with
  | none => store
  | some e => aset store (fld r 0) { e with sty := some (e.sty.getD [] ++ [fld r 2]) }

/-- Specification-side: the rows of one MRCONSO pass that survive the
language filter and the forbidden-set filter and belong to the
concept pk. -/
def spec_surviving_concept (L F : Finset String) (pk : String) (rows : List Row) : List Row :=
  rows.filter (fun r => decide (fld r 1 ∈ L ∧ fld r 5 ∉ F ∧ fld r 0 = pk))

/-- Specification-side: the term id of the last surviving MRCONSO row
for pk that carries the preferred flag P, if any. -/
def spec_last_preferred (L F : Finset String) (pk : String) : List Row → Option String
  | [] => none
  | r :: rs =>
      orO (spec_last_preferred L F pk rs)
        (if fld r 1 ∈ L ∧ fld r 5 ∉ F ∧ fld r 0 = pk ∧ fld r 2 = "P"
         then some (fld r 3) else none)

/-- Specification-side: the rows of the string pass that survive the
language filter and the byte budget and belong to the string id pk. -/
def spec_surviving_string (L : Finset String) (pk : String) (rows : List Row) : List Row :=
  rows.filter (fun r => decide (fld r 1 ∈ L ∧ utf8Len (fld r 14) < 1000 ∧ fld r 5 = pk))

/-- Specification-side: the last surviving string-pass row for pk. -/
def spec_last_string_row (L : Finset String) (pk : String) : List Row → Option Row
  | [] => none
  | r :: rs =>
      orO (spec_last_string_row L pk rs)
        (if fld r 1 ∈ L ∧ utf8Len (fld r 14) < 1000 ∧ fld r 5 = pk
         then some r else none)

/-- The term set stored for pk, empty when the entry or the key is
absent. -/
def centryTerm (store : CStore) (pk : String) : Option (Finset String) :=
  (alookup store pk).bind (fun e => e.term)

/-- The string set stored for pk. -/
def centryStr (store : CStore) (pk : String) : Option (Finset String) :=
  (alookup store pk).bind (fun e => e.str)

/-- The preferred term stored for pk, absent when the key is. -/
def centryPref (store : CStore) (pk : String) : Option String :=
  (alookup store pk).bind (fun e => e.preferred)

/-- The concept set accumulated for the string id pk, with the empty
set standing for an absent entry. -/
def sentryConceptAcc (store : SStore) (pk : String) : Finset String :=
  (((alookup store pk).bind (fun e => e.concept)).getD ∅)

/-- The string entry the last surviving row r0 leaves for pk, around a
given accumulated concept set. -/
def sentryFrom (r0 : Row) (pk : String) (conc : Finset String) : SEntry :=
  { id := some pk, str := some (fld r0 14), lower := some (lowerwords (fld r0 14)),
    lang := some (fld r0 1), numwords := some (pySplit (fld r0 14)).length,
    numwordslower := some (pySplit (lowerwords (fld r0 14))).length,
    term := some (fld r0 3),
    concept := some conc }

/-! ## Dictionary lemmas -/

theorem alookup_aset_self {α : Type} (s : List (String × α)) (k : String) (v : α) :
    alookup (aset s k v) k = some v := by
  induction s with
  | nil => simp [aset, alookup]
  | cons hd tl ih =>
      obtain ⟨k0, v0⟩ := hd
      by_cases h : k = k0
      · simp [aset, alookup, h]
      · simp [aset, alookup, h, ih]

theorem alookup_aset_ne {α : Type} (s : List (String × α)) (k k2 : String) (v : α)
    (h : k2 ≠ k) : alookup (aset s k v) k2 = alookup s k2 := by
  induction s with
  | nil => simp [aset, alookup, h]
  | cons hd tl ih =>
      obtain ⟨k0, v0⟩ := hd
      by_cases hk : k = k0
      · subst hk
        simp [aset, alookup, h]
      · by_cases hk2 : k2 = k0
        · simp [aset, alookup, hk, hk2]
        · simp [aset, alookup, hk, hk2, ih]

theorem insertF_eq (x : String) (o : Option (Finset String)) :
    insertF x o = insert x (o.getD ∅) := by
  cases o <;> simp [insertF]

theorem orO_none_right {α : Type} (o : Option α) : orO o none = o := by
  cases o <;> simp [orO]

/-! ## The language filter (claim C2) -/

theorem concepts_fold_filter (L F : Finset String) :
    ∀ (rows : List Row) (store : CStore),
      create_concepts_fold L F store rows
        = create_concepts_body_fold F store (rows.filter (fun r => decide (fld r 1 ∈ L))) := by
  intro rows
  induction rows with
  | nil => intro store; rfl
  | cons r rs ih =>
      intro store
      by_cases h : fld r 1 ∈ L
      · simp [create_concepts_fold, create_concepts_step, h, List.filter_cons,
              create_concepts_body_fold, ih]
      · simp [create_concepts_fold, create_concepts_step, h, List.filter_cons, ih]

theorem terms_fold_filter (L F : Finset String) :
    ∀ (rows : List Row) (store : TStore),
      create_terms_fold L F store rows
        = create_terms_body_fold F store (rows.filter (fun r => decide (fld r 1 ∈ L))) := by
  intro rows
  induction rows with
  | nil => intro store; rfl
  | cons r rs ih =>
      intro store
      by_cases h : fld r 1 ∈ L
      · simp [create_terms_fold, create_terms_step, h, List.filter_cons,
              create_terms_body_fold, ih]
      · simp [create_terms_fold, create_terms_step, h, List.filter_cons, ih]

theorem strings_fold_filter (L : Finset String) :
    ∀ (rows : List Row) (st : SStore × Finset String),
      create_strings_fold L st rows
        = create_strings_body_fold st (rows.filter (fun r => decide (fld r 1 ∈ L))) := by
  intro rows
  induction rows with
  | nil => intro st; rfl
  | cons r rs ih =>
      intro st
      by_cases h : fld r 1 ∈ L
      · simp [create_strings_fold, create_strings_step, h, List.filter_cons,
              create_strings_body_fold, ih]
      · simp [create_strings_fold, create_strings_step, h, List.filter_cons, ih]

/-- An ordinary English MRCONSO row (18 fields). -/
def exRow : Row :=
  ["C0004096", "ENG", "P", "L0004096", "PF", "S0016668", "Y", "A0016668",
   "", "", "", "MSH", "MH", "D001249", "Asthma", "0", "N", ""]

/-- C2 counterexample: the claim says an empty language filter set
accepts every row, but with self.languages empty the membership test
split[1] in self.languages fails for every row, so each of the three
MRCONSO passes skips every row: all three stores stay empty on a row
the claim says must be accepted. -/
theorem C2_counterexample :
    create_concepts_store ∅ ∅ [exRow] = []
    ∧ create_terms_store ∅ ∅ [exRow] = []
    ∧ create_strings_state ∅ [exRow] = ([], ∅) := by
  refine ⟨rfl, rfl, rfl⟩

/-- C2 amended: in every builder pass over MRCONSO, a row is processed
exactly when its language field (index 1) is a member of the filter
set: each pass equals the fold of its loop body over precisely the
rows whose language is in the set.  In particular an empty filter set
accepts no row at all (the filter is empty), not every row. -/
theorem C2_language_filter (L F : Finset String) (rows : List Row)
    (cs : CStore) (ts : TStore) (ss : SStore × Finset String) :
    create_concepts_fold L F cs rows
      = create_concepts_body_fold F cs (rows.filter (fun r => decide (fld r 1 ∈ L)))
    ∧ create_terms_fold L F ts rows
      = create_terms_body_fold F ts (rows.filter (fun r => decide (fld r 1 ∈ L)))
    ∧ create_strings_fold L ss rows
      = create_strings_body_fold ss (rows.filter (fun r => decide (fld r 1 ∈ L))) :=
  ⟨concepts_fold_filter L F rows cs, terms_fold_filter L F rows ts,
   strings_fold_filter L rows ss⟩

/-! ## Per-row effect of the concept pass on one key -/

theorem concepts_step_term (L F : Finset String) (s : CStore) (r : Row) (pk : String) :
    centryTerm (create_concepts_step L F s r) pk =
      if fld r 1 ∈ L ∧ fld r 5 ∉ F ∧ fld r 0 = pk
      then some (insertF (fld r 3) (centryTerm s pk))
      else centryTerm s pk := by
  by_cases h1 : fld r 1 ∈ L
  · by_cases h2 : fld r 5 ∈ F
    · simp [create_concepts_step, create_concepts_row, h1, h2]
    · by_cases h3 : fld r 0 = pk
      · subst h3
        cases halo : alookup s (fld r 0) with
        | none =>
            by_cases h4 : fld r 2 = "P" <;>
              simp [create_concepts_step, create_concepts_row, h1, h2, h4,
                    centryTerm, halo, alookup_aset_self]
        | some e =>
            by_cases h4 : fld r 2 = "P" <;>
              simp [create_concepts_step, create_concepts_row, h1, h2, h4,
                    centryTerm, halo, alookup_aset_self]
      · have hne : pk ≠ fld r 0 := fun h => h3 h.symm
        simp [create_concepts_step, create_concepts_row, h1, h2, h3,
              centryTerm, alookup_aset_ne _ _ _ _ hne]
  · simp [create_concepts_step, h1]

theorem concepts_step_str (L F : Finset String) (s : CStore) (r : Row) (pk : String) :
    centryStr (create_concepts_step L F s r) pk =
      if fld r 1 ∈ L ∧ fld r 5 ∉ F ∧ fld r 0 = pk
      then some (insertF (fld r 5) (centryStr s pk))
      else centryStr s pk := by
  by_cases h1 : fld r 1 ∈ L
  · by_cases h2 : fld r 5 ∈ F
    · simp [create_concepts_step, create_concepts_row, h1, h2]
    · by_cases h3 : fld r 0 = pk
      · subst h3
        cases halo : alookup s (fld r 0) with
        | none =>
            by_cases h4 : fld r 2 = "P" <;>
              simp [create_concepts_step, create_concepts_row, h1, h2, h4,
                    centryStr, halo, alookup_aset_self]
        | some e =>
            by_cases h4 : fld r 2 = "P" <;>
              simp [create_concepts_step, create_concepts_row, h1, h2, h4,
                    centryStr, halo, alookup_aset_self]
      · have hne : pk ≠ fld r 0 := fun h => h3 h.symm
        simp [create_concepts_step, create_concepts_row, h1, h2, h3,
              centryStr, alookup_aset_ne _ _ _ _ hne]
  · simp [create_concepts_step, h1]

theorem concepts_step_pref (L F : Finset String) (s : CStore) (r : Row) (pk : String) :
    centryPref (create_concepts_step L F s r) pk =
      if fld r 1 ∈ L ∧ fld r 5 ∉ F ∧ fld r 0 = pk ∧ fld r 2 = "P"
      then some (fld r 3)
      else centryPref s pk := by
  by_cases h1 : fld r 1 ∈ L
  · by_cases h2 : fld r 5 ∈ F
    · simp [create_concepts_step, create_concepts_row, h1, h2]
    · by_cases h3 : fld r 0 = pk
      · subst h3
        cases halo : alookup s (fld r 0) with
        | none =>
            by_cases h4 : fld r 2 = "P" <;>
              simp [create_concepts_step, create_concepts_row, h1, h2, h4,
                    centryPref, halo, alookup_aset_self]
        | some e =>
            by_cases h4 : fld r 2 = "P" <;>
              simp [create_concepts_step, create_concepts_row, h1, h2, h4,
                    centryPref, halo, alookup_aset_self]
      · have hne : pk ≠ fld r 0 := fun h => h3 h.symm
        simp [create_concepts_step, create_concepts_row, h1, h2, h3,
              centryPref, alookup_aset_ne _ _ _ _ hne]
  · simp [create_concepts_step, h1]

/-! ## Characterization of the whole concept pass -/

theorem spec_surviving_concept_cons (L F : Finset String) (pk : String) (r : Row) (rs : List Row) :
    spec_surviving_concept L F pk (r :: rs) =
      if fld r 1 ∈ L ∧ fld r 5 ∉ F ∧ fld r 0 = pk
      then r :: spec_surviving_concept L F pk rs
      else spec_surviving_concept L F pk rs := by
  by_cases h : fld r 1 ∈ L ∧ fld r 5 ∉ F ∧ fld r 0 = pk <;>
    simp [spec_surviving_concept, List.filter_cons, h]

theorem orO_assoc {α : Type} (a b c : Option α) :
    orO (orO a b) c = orO a (orO b c) := by
  cases a <;> simp [orO]

theorem orO_some_left {α : Type} (a : α) (b : Option α) :
    orO (some a) b = some a := rfl

theorem concepts_fold_term (L F : Finset String) (pk : String) :
    ∀ (rows : List Row) (s : CStore),
      centryTerm (create_concepts_fold L F s rows) pk =
        if spec_surviving_concept L F pk rows = [] then centryTerm s pk
        else some (((spec_surviving_concept L F pk rows).map (fun r => fld r 3)).toFinset
                    ∪ (centryTerm s pk).getD ∅) := by
  intro rows
  induction rows with
  | nil => intro s; simp [create_concepts_fold, spec_surviving_concept]
  | cons r rs ih =>
      intro s
      by_cases hr : fld r 1 ∈ L ∧ fld r 5 ∉ F ∧ fld r 0 = pk
      · by_cases hrs : spec_surviving_concept L F pk rs = []
        · simp [create_concepts_fold, ih, concepts_step_term,
                spec_surviving_concept_cons, hr, hrs, insertF_eq,
                Finset.insert_eq]
        · simp [create_concepts_fold, ih, concepts_step_term,
                spec_surviving_concept_cons, hr, hrs, insertF_eq,
                Finset.union_insert, Finset.insert_union]
      · simp [create_concepts_fold, ih, concepts_step_term,
              spec_surviving_concept_cons, hr]

theorem concepts_fold_str (L F : Finset String) (pk : String) :
    ∀ (rows : List Row) (s : CStore),
      centryStr (create_concepts_fold L F s rows) pk =
        if spec_surviving_concept L F pk rows = [] then centryStr s pk
        else some (((spec_surviving_concept L F pk rows).map (fun r => fld r 5)).toFinset
                    ∪ (centryStr s pk).getD ∅) := by
  intro rows
  induction rows with
  | nil => intro s; simp [create_concepts_fold, spec_surviving_concept]
  | cons r rs ih =>
      intro s
      by_cases hr : fld r 1 ∈ L ∧ fld r 5 ∉ F ∧ fld r 0 = pk
      · by_cases hrs : spec_surviving_concept L F pk rs = []
        · simp [create_concepts_fold, ih, concepts_step_str,
                spec_surviving_concept_cons, hr, hrs, insertF_eq,
                Finset.insert_eq]
        · simp [create_concepts_fold, ih, concepts_step_str,
                spec_surviving_concept_cons, hr, hrs, insertF_eq,
                Finset.union_insert, Finset.insert_union]
      · simp [create_concepts_fold, ih, concepts_step_str,
              spec_surviving_concept_cons, hr]

theorem concepts_fold_pref (L F : Finset String) (pk : String) :
    ∀ (rows : List Row) (s : CStore),
      centryPref (create_concepts_fold L F s rows) pk =
        orO (spec_last_preferred L F pk rows) (centryPref s pk) := by
  intro rows
  induction rows with
  | nil => intro s; simp [create_concepts_fold, spec_last_preferred, orO]
  | cons r rs ih =>
      intro s
      by_cases h4 : fld r 1 ∈ L ∧ fld r 5 ∉ F ∧ fld r 0 = pk ∧ fld r 2 = "P"
      · simp [create_concepts_fold, ih, concepts_step_pref, spec_last_preferred,
              h4, orO_assoc, orO_some_left]
      · simp [create_concepts_fold, ih, concepts_step_pref, spec_last_preferred,
              h4, orO_none_right]

/-! ## Claims C8 and C9 -/

/-- Two English MRCONSO rows for the same concept C1 with distinct
term and string ids, the first one preferred. -/
def c8r1 : Row :=
  ["C1", "ENG", "P", "L1", "PF", "S1", "Y", "A1", "", "", "", "MSH", "MH",
   "D1", "alpha", "0", "N", ""]

def c8r2 : Row :=
  ["C1", "ENG", "S", "L2", "PF", "S2", "Y", "A2", "", "", "", "MSH", "MH",
   "D2", "beta", "0", "N", ""]

/-- C8 counterexample: both rows share concept id C1 and pass the
language filter, so the claim says the record of C1 has term set
containing L1 and L2.  But when the forbidden set holds S2 (as happens
whenever the string pass dropped an oversize S2 earlier in the run),
the second row is skipped by the forbidden check of line 153 and the
term set is only the singleton of L1. -/
theorem C8_counterexample :
    (fld c8r1 1 ∈ ({"ENG"} : Finset String) ∧ fld c8r2 1 ∈ ({"ENG"} : Finset String)
      ∧ fld c8r1 0 = "C1" ∧ fld c8r2 0 = "C1")
    ∧ centryTerm (create_concepts_store {"ENG"} {"S2"} [c8r1, c8r2]) "C1" = some {"L1"}
    ∧ ({"L1"} : Finset String) ≠ {"L1", "L2"} := by
  refine ⟨by decide, by decide, by decide⟩

/-- C8 amended: for every set of MRCONSO rows sharing the same concept
id, passing the language filter AND whose string-id field is not in
the forbidden set, the resulting concept record has term-id set equal
to the union of the surviving rows term-id fields (index 3) and
string-id set equal to the union of their string-id fields (index 5),
each deduplicated. -/
theorem C8_conceptrecord_sets (L F : Finset String) (rows : List Row) (pk : String)
    (h : spec_surviving_concept L F pk rows ≠ []) :
    ∃ e, alookup (create_concepts_store L F rows) pk = some e
      ∧ e.term = some ((spec_surviving_concept L F pk rows).map (fun r => fld r 3)).toFinset
      ∧ e.str = some ((spec_surviving_concept L F pk rows).map (fun r => fld r 5)).toFinset := by
  have ht := concepts_fold_term L F pk rows []
  have hs := concepts_fold_str L F pk rows []
  rw [if_neg h] at ht hs
  have hnilt : centryTerm ([] : CStore) pk = none := rfl
  have hnils : centryStr ([] : CStore) pk = none := rfl
  rw [hnilt] at ht
  rw [hnils] at hs
  simp only [Option.getD_none, Finset.union_empty] at ht hs
  have ht2 : (alookup (create_concepts_store L F rows) pk).bind (fun e => e.term)
      = some ((spec_surviving_concept L F pk rows).map (fun r => fld r 3)).toFinset := ht
  have hs2 : (alookup (create_concepts_store L F rows) pk).bind (fun e => e.str)
      = some ((spec_surviving_concept L F pk rows).map (fun r => fld r 5)).toFinset := hs
  cases halo : alookup (create_concepts_store L F rows) pk with
  | none => rw [halo] at ht2; exact Option.noConfusion ht2
  | some e =>
      rw [halo] at ht2 hs2
      exact ⟨e, rfl, ht2, hs2⟩

/-- C8 witness: the amended statement evaluated on the two concrete
rows with an empty forbidden set. -/
theorem C8_witness :
    (spec_surviving_concept {"ENG"} ∅ "C1" [c8r1, c8r2] ≠ []) ∧
    (∃ e, alookup (create_concepts_store {"ENG"} ∅ [c8r1, c8r2]) "C1" = some e
      ∧ e.term = some ((spec_surviving_concept {"ENG"} ∅ "C1" [c8r1, c8r2]).map
          (fun r => fld r 3)).toFinset
      ∧ e.str = some ((spec_surviving_concept {"ENG"} ∅ "C1" [c8r1, c8r2]).map
          (fun r => fld r 5)).toFinset) :=
  ⟨by decide, C8_conceptrecord_sets {"ENG"} ∅ [c8r1, c8r2] "C1" (by decide)⟩

/-- C9: the preferred field of a concept record equals the term id of
the last surviving preferred row in file order, and is absent when no
surviving row for the concept carries the flag P.  In particular, with
exactly one surviving preferred row the field is that rows term id,
with several the last writer wins, and with none the key is absent. -/
theorem C9_preferred_field (L F : Finset String) (rows : List Row) (pk : String) :
    centryPref (create_concepts_store L F rows) pk = spec_last_preferred L F pk rows := by
  have h := concepts_fold_pref L F pk rows []
  have hnil : centryPref ([] : CStore) pk = none := rfl
  rw [hnil, orO_none_right] at h
  exact h

/-! ## Claim C10: the string pass -/

theorem spec_surviving_string_cons (L : Finset String) (pk : String) (r : Row) (rs : List Row) :
    spec_surviving_string L pk (r :: rs) =
      if fld r 1 ∈ L ∧ utf8Len (fld r 14) < 1000 ∧ fld r 5 = pk
      then r :: spec_surviving_string L pk rs
      else spec_surviving_string L pk rs := by
  by_cases h : fld r 1 ∈ L ∧ utf8Len (fld r 14) < 1000 ∧ fld r 5 = pk <;>
    simp [spec_surviving_string, List.filter_cons, h]

theorem spec_last_string_none (L : Finset String) (pk : String) :
    ∀ rows : List Row, spec_last_string_row L pk rows = none →
      spec_surviving_string L pk rows = [] := by
  intro rows
  induction rows with
  | nil => intro _; simp [spec_surviving_string]
  | cons r rs ih =>
      intro h
      by_cases hc : fld r 1 ∈ L ∧ utf8Len (fld r 14) < 1000 ∧ fld r 5 = pk
      · cases hrec : spec_last_string_row L pk rs <;>
          simp [spec_last_string_row, hc, hrec, orO] at h
      · rw [spec_last_string_row, if_neg hc, orO_none_right] at h
        rw [spec_surviving_string_cons, if_neg hc]
        exact ih h

theorem strings_row_eq (s : SStore) (f : Finset String) (r : Row)
    (h : utf8Len (fld r 14) < 1000) :
    create_strings_row (s, f) r
      = (aset s (fld r 5) (sentryFrom r (fld r 5)
          (insert (fld r 0) (sentryConceptAcc s (fld r 5)))), f) := by
  have h2 : ¬ 1000 ≤ utf8Len (fld r 14) := not_le.mpr h
  cases halo : alookup s (fld r 5) with
  | none => simp [create_strings_row, h2, sentryFrom, sentryConceptAcc, halo, insertF]
  | some e => simp [create_strings_row, h2, sentryFrom, sentryConceptAcc, halo, insertF_eq]

theorem strings_fold_lookup (L : Finset String) (pk : String) :
    ∀ (rows : List Row) (s : SStore) (f : Finset String),
      alookup (create_strings_fold L (s, f) rows).1 pk =
        match spec_last_string_row L pk rows with
        | none => alookup s pk
        | some r0 => some (sentryFrom r0 pk
            (((spec_surviving_string L pk rows).map (fun r => fld r 0)).toFinset
              ∪ sentryConceptAcc s pk)) := by
  intro rows
  induction rows with
  | nil => intro s f; simp [create_strings_fold, spec_last_string_row]
  | cons r rs ih =>
      intro s f
      simp only [create_strings_fold]
      by_cases h1 : fld r 1 ∈ L
      · by_cases h2 : 1000 ≤ utf8Len (fld r 14)
        · have hstep : create_strings_step L (s, f) r = (s, insert (fld r 5) f) := by
            simp [create_strings_step, create_strings_row, h1, h2]
          have hc : ¬ (fld r 1 ∈ L ∧ utf8Len (fld r 14) < 1000 ∧ fld r 5 = pk) := by
            rintro ⟨_, hlt, _⟩
            exact absurd h2 (not_le.mpr hlt)
          rw [hstep, ih]
          simp [spec_last_string_row, spec_surviving_string_cons, hc, orO_none_right]
        · have hlt : utf8Len (fld r 14) < 1000 := not_le.mp h2
          by_cases h3 : fld r 5 = pk
          · subst h3
            have hstep : create_strings_step L (s, f) r
                = (aset s (fld r 5) (sentryFrom r (fld r 5)
                    (insert (fld r 0) (sentryConceptAcc s (fld r 5)))), f) := by
              rw [create_strings_step, if_neg (not_not_intro h1)]
              exact strings_row_eq s f r hlt
            have hc : fld r 1 ∈ L ∧ utf8Len (fld r 14) < 1000 ∧ fld r 5 = fld r 5 :=
              ⟨h1, hlt, rfl⟩
            rw [hstep, ih]
            cases hlast : spec_last_string_row L (fld r 5) rs with
            | none =>
                have hfil := spec_last_string_none L (fld r 5) rs hlast
                simp [spec_last_string_row, spec_surviving_string_cons, hc, hlast, hfil, orO,
                      alookup_aset_self, sentryConceptAcc, sentryFrom, Finset.insert_eq]
            | some r1 =>
                simp [spec_last_string_row, spec_surviving_string_cons, hc, hlast, orO,
                      alookup_aset_self, sentryConceptAcc, sentryFrom,
                      Finset.union_insert, Finset.insert_union]
          · have hstep : create_strings_step L (s, f) r
                = (aset s (fld r 5) (sentryFrom r (fld r 5)
                    (insert (fld r 0) (sentryConceptAcc s (fld r 5)))), f) := by
              rw [create_strings_step, if_neg (not_not_intro h1)]
              exact strings_row_eq s f r hlt
            have hne : pk ≠ fld r 5 := fun hh => h3 hh.symm
            have hc : ¬ (fld r 1 ∈ L ∧ utf8Len (fld r 14) < 1000 ∧ fld r 5 = pk) := by
              rintro ⟨_, _, h5⟩
              exact h3 h5
            rw [hstep, ih]
            cases hlast : spec_last_string_row L pk rs <;>
              simp [spec_last_string_row, spec_surviving_string_cons, hc, hlast, orO_none_right,
                    alookup_aset_ne _ _ _ _ hne, sentryConceptAcc]
      · have hstep : create_strings_step L (s, f) r = (s, f) := by
          simp [create_strings_step, h1]
        have hc : ¬ (fld r 1 ∈ L ∧ utf8Len (fld r 14) < 1000 ∧ fld r 5 = pk) := by
          rintro ⟨hh, _, _⟩
          exact h1 hh
        rw [hstep, ih]
        simp [spec_last_string_row, spec_surviving_string_cons, hc, orO_none_right]

/-- C10: for every string id with at least one surviving MRCONSO row
(a row passing the language filter and under the byte budget), the
resulting string record takes all scalar fields (surface text,
lowercased form, language, both word counts, owning term id) from the
last surviving row in file order, overwriting earlier rows, while the
concept set is the union of the concept ids of all surviving rows for
that string id. -/
theorem C10_string_last_writer (L : Finset String) (rows : List Row) (pk : String) (r0 : Row)
    (h : spec_last_string_row L pk rows = some r0) :
    alookup (create_strings_state L rows).1 pk =
      some (sentryFrom r0 pk
        ((spec_surviving_string L pk rows).map (fun r => fld r 0)).toFinset) := by
  have hc := strings_fold_lookup L pk rows [] ∅
  rw [h] at hc
  simpa [sentryConceptAcc, alookup] using hc

/-- Two English MRCONSO rows sharing the string id S1 with different
scalar fields and different concept ids. -/
def c10r1 : Row :=
  ["C1", "ENG", "P", "L1", "PF", "S1", "Y", "A1", "", "", "", "MSH", "MH",
   "D1", "Asthma", "0", "N", ""]

def c10r2 : Row :=
  ["C2", "ENG", "S", "L2", "VO", "S1", "N", "A2", "", "", "", "MSH", "MH",
   "D2", "asthma NOS", "0", "N", ""]

/-- C10 witness: evaluated on two rows sharing string id S1. -/
theorem C10_witness :
    (spec_last_string_row {"ENG"} "S1" [c10r1, c10r2] = some c10r2) ∧
    alookup (create_strings_state {"ENG"} [c10r1, c10r2]).1 "S1" =
      some (sentryFrom c10r2 "S1"
        ((spec_surviving_string {"ENG"} "S1" [c10r1, c10r2]).map (fun r => fld r 0)).toFinset) :=
  ⟨by decide, C10_string_last_writer {"ENG"} [c10r1, c10r2] "S1" c10r2 (by decide)⟩

/-! ## Claim C3: the 1000 byte budget -/

theorem charSize_a : charSize 'a' = 1 := by decide

theorem utf8Len_replicate (n : Nat) :
    utf8Len (String.mk (List.replicate n 'a')) = n := by
  induction n with
  | zero => rfl
  | succ n ih =>
      rw [List.replicate_succ]
      show charSize 'a' + utf8Len (String.mk (List.replicate n 'a')) = n + 1
      rw [charSize_a, ih]
      omega

/-- An ASCII surface text of exactly 1000 UTF-8 bytes. -/
def bigStr1000 : String := String.mk (List.replicate 1000 'a')

/-- An ASCII surface text of 999 UTF-8 bytes. -/
def okStr999 : String := String.mk (List.replicate 999 'a')

/-- An English MRCONSO row whose surface text is exactly 1000 bytes. -/
def c3rowBig : Row :=
  ["C1", "ENG", "P", "L1", "PF", "S1", "Y", "A1", "", "", "", "MSH", "MH",
   "D1", bigStr1000, "0", "N", ""]

/-- An English MRCONSO row whose surface text is 999 bytes. -/
def c3rowOk : Row :=
  ["C1", "ENG", "P", "L1", "PF", "S2", "Y", "A1", "", "", "", "MSH", "MH",
   "D1", okStr999, "0", "N", ""]

set_option maxRecDepth 40000 in
/-- C3 evaluated at the failing input: the claim (and the docstring of
_create_strings, which says only texts OVER 1000 bytes are thrown
away) retains a surface text of exactly 1000 bytes, but the comparison
on line 232 is 1000 or more, so the 1000-byte row is dropped and its
string id S1 lands in the forbidden set; a 999-byte text is kept
unmodified and nothing is forbidden.  Neither case raises. -/
theorem C3_byte_budget :
    utf8Len (fld c3rowBig 14) = 1000
    ∧ create_strings_state {"ENG"} [c3rowBig] = ([], ({"S1"} : Finset String))
    ∧ utf8Len (fld c3rowOk 14) = 999
    ∧ (alookup (create_strings_state {"ENG"} [c3rowOk]).1 "S2").map (fun e => e.str)
        = some (some okStr999)
    ∧ (create_strings_state {"ENG"} [c3rowOk]).2 = ∅ := by
  refine ⟨utf8Len_replicate 1000, ?_, utf8Len_replicate 999, ?_, ?_⟩
  · rfl
  · rfl
  · rfl

/-! ## Claim C1: directional relation merge -/

/-- English MRCONSO rows creating concepts C1 and C2. -/
def c1conso1 : Row :=
  ["C1", "ENG", "P", "L1", "PF", "S1", "Y", "A1", "", "", "", "MSH", "MH",
   "D1", "alpha", "0", "N", ""]

def c1conso2 : Row :=
  ["C2", "ENG", "P", "L2", "PF", "S2", "Y", "A2", "", "", "", "MSH", "MH",
   "D2", "beta", "0", "N", ""]

/-- One MRREL row: destination C2 (field 0), code CHD (field 3),
source C1 (field 4). -/
def c1rel : Row :=
  ["C2", "A2", "AUI", "CHD", "C1", "A1", "AUI", "isa", "R1", "", "MSH",
   "MSH", "", "N", "", ""]

/-- The concept accumulator holding C1 and C2, as _create_concepts
hands it to _mrrel: every entry carries the plain empty dict under
rel. -/
def c1store : CStore :=
  concept_bson_convert (create_concepts_store {"ENG"} ∅ [c1conso1, c1conso2])

/-- C1 evaluated at the failing input: the claim (and the spec) expect
the single CHD row to leave the bucket child containing C2 in the
relation map of C1.  The code instead hits the except branch (the
plain dict from line 178 has no child bucket), which replaces the rel
value of C1 by a fresh empty defaultdict WITHOUT adding the
destination (line 364), so the relation map of C1 ends up with no
buckets at all; C2 is left unchanged, as claimed. -/
theorem C1_first_relation_dropped :
    (alookup c1store "C1").map (fun e => e.rel)
        = some (some { isDefault := false, buckets := [] })
    ∧ (mrrel_model c1store [c1rel]).map
        (fun st => ((alookup st "C1").map (fun e => e.rel),
                    (alookup st "C2").map (fun e => e.rel)))
      = Except.ok (some (some { isDefault := true, buckets := [] }),
                   some (some { isDefault := false, buckets := [] })) :=
  ⟨rfl, rfl⟩

/-! ## Claim C7: unknown relation codes are fatal -/

theorem mrrel_row_ok (store : CStore) (r : Row) (v : String)
    (h : alookup relationmapping (fld r 3) = some v) :
    ∃ s, mrrel_row store r = Except.ok s := by
  simp only [mrrel_row, h]
  cases hrel : ((alookup store (fld r 4)).getD {}).rel with
  | none => exact ⟨_, rfl⟩
  | some rm =>
      by_cases hd : rm.isDefault
      · simp only [hd, if_true]
        exact ⟨_, rfl⟩
      · simp only [hd, if_false]
        cases hb : alookup rm.buckets v with
        | none => exact ⟨_, rfl⟩
        | some s0 => exact ⟨_, rfl⟩

theorem mrrel_fold_error :
    ∀ (rows : List Row) (store : CStore),
      (∃ r ∈ rows, alookup relationmapping (fld r 3) = none) →
      ∃ msg, mrrel_fold store rows = Except.error msg := by
  intro rows
  induction rows with
  | nil => intro store h; simp at h
  | cons r rs ih =>
      intro store h
      cases hr : alookup relationmapping (fld r 3) with
      | none =>
          refine ⟨"KeyError: relation code", ?_⟩
          simp [mrrel_fold, mrrel_row, hr]
      | some v =>
          obtain ⟨s, hs⟩ := mrrel_row_ok store r v hr
          have hbad : ∃ r2 ∈ rs, alookup relationmapping (fld r2 3) = none := by
            obtain ⟨r2, hmem, h2⟩ := h
            cases List.mem_cons.mp hmem with
            | inl heq =>
                subst heq
                rw [hr] at h2
                exact absurd h2 (by simp)
            | inr hmem2 => exact ⟨r2, hmem2, h2⟩
          simp only [mrrel_fold, hs]
          exact ih s hbad

/-- C7: whenever some MRREL row carries a relation code that is not a
key of the static relation table, _mrrel raises (the KeyError from
line 359 is outside the try and is not swallowed), the error
propagates out of _create_concepts, and no concept record list is
produced for bulk insertion. -/
theorem C7_unknown_relation_code (L iso F : Finset String)
    (classify tok : String → String) (definitions : Bool)
    (mrconso mrdefRows mrrelRows : List Row)
    (h : ∃ r ∈ mrrelRows, alookup relationmapping (fld r 3) = none) :
    ∃ msg, create_concepts L iso F classify tok definitions true
        mrconso mrdefRows mrrelRows = Except.error msg := by
  obtain ⟨msg, hmsg⟩ := mrrel_fold_error mrrelRows
    (if definitions then
       mrdef_model iso classify tok
         (concept_bson_convert (create_concepts_store L F mrconso)) mrdefRows
     else concept_bson_convert (create_concepts_store L F mrconso)) h
  refine ⟨msg, ?_⟩
  simp only [create_concepts, if_true, mrrel_model, hmsg]

/-- An MRREL row with the unmapped relation code ZZZ. -/
def c7bad : Row :=
  ["C2", "A2", "AUI", "ZZZ", "C1", "A1", "AUI", "", "R1", "", "MSH",
   "MSH", "", "N", "", ""]

/-- C7 witness: the theorem applied to one concrete bad row. -/
theorem C7_witness :
    (∃ r ∈ [c7bad], alookup relationmapping (fld r 3) = none)
    ∧ ∃ msg, create_concepts {"ENG"} {"en"} ∅ (fun _ => "en") (fun d => d)
        true true [] [] [c7bad] = Except.error msg :=
  ⟨by decide,
   C7_unknown_relation_code {"ENG"} {"en"} ∅ (fun _ => "en") (fun d => d)
     true [] [] [c7bad] (by decide)⟩

/-! ## Claim C5: the Semantic Type Merger (modelled from the spec) -/

/-- C5: for every MRSTY row whose concept id (field 0) is present in
the concept accumulator, the merger appends the semantic-type code
(field 2) to the semantic-type list of that concept without
deduplication, touching no other entry; a row whose concept id is
unknown is skipped silently.  Settled against mrsty_row, which is
modelled from the spec because src has no MRSTY pass. -/
theorem C5_semantic_type_append (store : CStore) (r : Row) :
    (alookup store (fld r 0) = none → mrsty_row store r = store)
    ∧ ∀ e, alookup store (fld r 0) = some e →
        alookup (mrsty_row store r) (fld r 0)
            = some { e with sty := some (e.sty.getD [] ++ [fld r 2]) }
        ∧ ∀ k, k ≠ fld r 0 → alookup (mrsty_row store r) k = alookup store k := by
  constructor
  · intro h
    simp [mrsty_row, h]
  · intro e he
    constructor
    · simp [mrsty_row, he, alookup_aset_self]
    · intro k hk
      simp [mrsty_row, he, alookup_aset_ne _ _ _ _ hk]

/-- A concept entry already holding the semantic type T047 once. -/
def c5entry : CEntry := { id := some "C1", sty := some ["T047"] }

def c5store : CStore := [("C1", c5entry)]

/-- An MRSTY row for C1 repeating the code T047 (field 2). -/
def c5row : Row := ["C1", "x", "T047", "y", "z", ""]

/-- C5 witness: appending a repeated code keeps both occurrences (no
deduplication) and leaves other keys untouched. -/
theorem C5_witness :
    alookup (mrsty_row c5store c5row) "C1"
        = some { c5entry with sty := some ["T047", "T047"] }
    ∧ alookup (mrsty_row c5store c5row) "C2" = alookup c5store "C2" := by
  have h2 := (C5_semantic_type_append c5store c5row).2 c5entry (by decide)
  exact ⟨h2.1, h2.2 "C2" (by decide)⟩

/-! ## Claim C4: the forbidden set and the term pass -/

/-- An English MRCONSO row whose surface text is 1000 bytes: its
string id S1 is destined for the forbidden set. -/
def c4row : Row :=
  ["C1", "ENG", "P", "L1", "PF", "S1", "Y", "A1", "", "", "", "MSH", "MH",
   "D1", bigStr1000, "0", "N", ""]

set_option maxRecDepth 40000 in
/-- C4 evaluated at the failing input: process runs _create_terms
BEFORE _create_strings, so the forbidden check of line 300 always
tests the still-empty set.  After the full run the term record L1
contains the string id S1 even though S1 is in the forbidden set at
the end of the run; the concept store, built after the string pass,
does honor the set and is empty. -/
theorem C4_terms_do_not_honor_forbidden :
    (process_model {"ENG"} {"en"} (fun _ => "en") (fun d => d) true true
        [c4row] [] []).map
      (fun o => ((alookup o.termStore "L1").map (fun e => e.str),
                 o.forbidden, o.conceptStore))
      = Except.ok (some (some {"S1"}), {"S1"}, []) := by
  rfl

/-! ## Claim C6: MRDEF rows for unknown concepts -/

def c6conso : Row :=
  ["C1", "ENG", "P", "L1", "PF", "S1", "Y", "A1", "", "", "", "MSH", "MH",
   "D1", "alpha", "0", "N", ""]

/-- An MRDEF row whose concept id C9 is absent from the accumulator
(field 0 the concept id, field 5 the definition text). -/
def c6def : Row :=
  ["C9", "A9", "AT9", "", "MSH", "An unknown concept definition", "N", ""]

/-- C6 evaluated at the failing input: _mrdef itself tolerates the
unknown concept id C9 by creating a placeholder entry holding only a
definition key.  But with relation processing enabled (the default)
the conversion loop of _mrrel (lines 366 to 368) reads
store[key][rel-key] for every key, has no try/except (unlike the
parallel loop of _mrdef), and raises KeyError on the placeholder: the
run does NOT complete.  Only with relation processing disabled does
the run complete, the placeholder being discarded by the
string-key filter of line 188 before persistence. -/
theorem C6_placeholder_outcomes :
    process_model {"ENG"} {"en"} (fun _ => "en") (fun d => d) true true
        [c6conso] [c6def] [] = Except.error "KeyError: rel"
    ∧ (process_model {"ENG"} {"en"} (fun _ => "en") (fun d => d) false true
        [c6conso] [c6def] []).map (fun o => o.conceptStore.map Prod.fst)
      = Except.ok ["C1"] :=
  ⟨rfl, rfl⟩
